import Mathlib

/-!
# Verification of the media re-encode subsystem

A shallow embedding of the asynchronous re-encode pipeline of the
media-specs service: bitrate validation (`validateBitrateFormat` and the
zod request schema), the transcoder (`reEncodeMedia`) with its
process-wide progress map, the job-submission, status and download
routes, and the storage commit of re-encoded artifact fields.

Machine conventions: JS strings are `String`, file contents are
`List Nat` (byte values), `Date.now()` readings are `Nat` parameters,
the `Map` used for progress tracking and the storage table are
association lists, and the asynchronous environment (does the input
file exist, does ffmpeg succeed, what progress events fire, does the
final `stat` succeed) is an explicit record threaded through the model.
-/

namespace MediaService

/-! ## Path helpers (Node `path.basename` / `path.extname` / `path.dirname`)

Only the behavior on ordinary POSIX file paths of the form
`dir/.../name.ext` is needed; normalization of degenerate paths
(trailing slashes, `..`) is not modelled. -/

/-- Chars of the last `/`-separated component of a path. -/
def basenameChars : List Char → List Char → List Char
  | [], acc => acc
  | c :: rest, acc =>
    if c = '/' then basenameChars rest [] else basenameChars rest (acc ++ [c])

/-- `path.basename p`: the last component of `p`. -/
def pathBasename (p : String) : String :=
  String.mk (basenameChars p.data [])

/-- `path.extname p`: the extension of the basename, from its last `.`
(inclusive); empty for names without a dot and for dotfiles. -/
def pathExtname (p : String) : String :=
  let b := (pathBasename p).data
  if b.contains '.' then
    let ext := b.reverse.takeWhile (fun c => c ≠ '.')
    if ext.length + 1 = b.length then ""
    else String.mk ('.' :: ext.reverse)
  else ""

/-- `path.dirname p`: everything before the last `/`, or `.` when there
is no slash. -/
def pathDirname (p : String) : String :=
  let cs := p.data
  if cs.contains '/' then
    String.mk ((cs.reverse.dropWhile (fun c => c ≠ '/')).drop 1).reverse
  else "."

/-! ## Bitrate validation

`validateBitrateFormat` (mediaService) tests the regex
`^(?:[1-9]\d{0,6}|0)(?:k|M)?$` and then bounds the numeric part:
1–50 for `M`, 8–8000 for `k`, 8000–50000000 for a bare number.
The zod request schema (`bitrateFormatSchema` in shared/schema.ts)
tests only the looser regex `^\d+(k|M)?$`. -/

/-- Split a trailing `k`/`M` unit from a char list; models both the
`bitrate.replace(/[kM]$/, '')` numeric part and the
`bitrate.endsWith('k'/'M')` tests. -/
def splitUnit (cs : List Char) : List Char × Option Char :=
  match cs.reverse with
  | [] => ([], none)
  | c :: rest => if c = 'k' ∨ c = 'M' then (rest.reverse, some c) else (cs, none)

/-- The digits of a bitrate literal read as a decimal number
(`parseInt` on an all-digit string). -/
def digitsToNat (ds : List Char) : Nat :=
  ds.foldl (fun acc c => acc * 10 + (c.toNat - 48)) 0

/-- The core numeric alternative `[1-9]\d{0,6}|0` of the strict regex. -/
def coreNumOk (ds : List Char) : Bool :=
  match ds with
  | [] => false
  | c :: rest =>
    if c = '0' then rest.isEmpty
    else c.isDigit && decide (rest.length ≤ 6) && rest.all (fun d => d.isDigit)

/-- The strict regex test `^(?:[1-9]\d{0,6}|0)(?:k|M)?$` used by
`validateBitrateFormat`. -/
def strongBitrateRegexTest (s : String) : Bool :=
  coreNumOk (splitUnit s.data).1

/-- The loose regex test `^\d+(k|M)?$` of `bitrateFormatSchema`
(shared/schema.ts), also the regex quoted by the spec. -/
def zodBitrateRegexTest (s : String) : Bool :=
  let ds := (splitUnit s.data).1
  !ds.isEmpty && ds.all (fun d => d.isDigit)

/-- `validateBitrateFormat` from the media service: strict regex test,
then the if/else-if chain on `endsWith('M')` / `endsWith('k')` bounding
the numeric value. -/
def validateBitrateFormat (s : String) : Bool :=
  if !strongBitrateRegexTest s then false
  else
    let n := digitsToNat (splitUnit s.data).1
    if (splitUnit s.data).2 = some 'M' then decide (1 ≤ n ∧ n ≤ 50)
    else if (splitUnit s.data).2 = some 'k' then decide (8 ≤ n ∧ n ≤ 8000)
    else decide (8000 ≤ n ∧ n ≤ 50000000)

/-- The validator the spec describes: the loose regex `^\d+(k|M)?$`
plus the same plausibility bounds.  Stated from the spec's words, to be
compared with `validateBitrateFormat`. -/
def claimedValidBitrate (s : String) : Bool :=
  zodBitrateRegexTest s &&
  (let n := digitsToNat (splitUnit s.data).1
   if (splitUnit s.data).2 = some 'k' then decide (8 ≤ n ∧ n ≤ 8000)
   else if (splitUnit s.data).2 = some 'M' then decide (1 ≤ n ∧ n ≤ 50)
   else decide (8000 ≤ n ∧ n ≤ 50000000))

/-- The plausibility bounds keyed on the unit: 8–8000 for `k`, 1–50
for `M`, 8000–50,000,000 for a bare number; no other unit exists. -/
def unitBounds (u : Option Char) (n : Nat) : Prop :=
  if u = some 'k' then 8 ≤ n ∧ n ≤ 8000
  else if u = some 'M' then 1 ≤ n ∧ n ≤ 50
  else if u = none then 8000 ≤ n ∧ n ≤ 50000000
  else False

/-- The amended characterization of `validateBitrateFormat`: digit
strings without leading zeros and with at most seven digits (i.e. the
regex `^(?:[1-9]\d{0,6}|0)(?:k|M)?$` rather than the claimed
`^\d+(k|M)?$`), followed by an optional `k`/`M` unit, whose decimal
value lies in the unit's plausibility bounds. -/
def amendedValidBitrate (s : String) : Prop :=
  ∃ ds u, s.data = ds ++ u.toList ∧
    (u = none ∨ u = some 'k' ∨ u = some 'M') ∧
    ds ≠ [] ∧ (∀ c ∈ ds, c.isDigit = true) ∧ ds.length ≤ 7 ∧
    (ds.head? = some '0' → ds = ['0']) ∧
    unitBounds u (digitsToNat ds)

/-! ## Progress tracker

`const encodingProgress = new Map<string, number>()` — a process-wide
map from job identifier to latest progress percent, modelled as an
association list with JS `Map` set/delete/get semantics. -/

/-- The progress map. -/
abbrev Tracker := List (String × Nat)

/-- `Map.set`: update the existing entry in place, or append a new one. -/
def trackerSet (t : Tracker) (k : String) (v : Nat) : Tracker :=
  if (List.any t fun kv => kv.1 = k) then
    List.map (fun kv => if kv.1 = k then (k, v) else kv) t
  else t ++ [(k, v)]

/-- `Map.delete`. -/
def trackerDelete (t : Tracker) (k : String) : Tracker :=
  List.filter (fun kv => ¬ kv.1 = k) t

/-- `Map.get`. -/
def trackerGet (t : Tracker) (k : String) : Option Nat :=
  Option.map Prod.snd (List.find? (fun kv => kv.1 = k) t)

/-- `getEncodingProgress(jobId)` = `encodingProgress.get(jobId) || 0`;
on the stored naturals `|| 0` is exactly defaulting `undefined` to 0
(a stored 0 also yields 0). -/
def getEncodingProgress (t : Tracker) (jobId : String) : Nat :=
  (trackerGet t jobId).getD 0

/-! ## Artifact records and storage

The `media_files` row fields that the re-encode subsystem reads and
writes (shared/schema.ts); `specs`, `createdAt` and `userId` play no
part in any claim and are omitted.  The storage table is keyed by `id`
as in `MemStorage`'s `Map<number, MediaFile>`. -/

structure MediaFile where
  id : Nat
  filename : String
  path : String
  size : Nat
  mediaType : String
  reEncodedPath : Option String
  reEncodedSize : Option Nat
  reEncodedBitrate : Option String
  isReEncoded : Bool
deriving DecidableEq, Repr

abbrev Store := List (Nat × MediaFile)

/-- `storage.getMediaFile(id)`. -/
def storeGet (st : Store) (id : Nat) : Option MediaFile :=
  Option.map Prod.snd (List.find? (fun kv => kv.1 = id) st)

/-- `MemStorage.createMediaFile`: inserts the record under the next id;
the insert schema omits the re-encoded fields, so they start unset and
`isReEncoded` starts falsy. -/
def createMediaFile (st : Store) (nextId : Nat) (filename p : String)
    (size : Nat) (mediaType : String) : Store × Nat :=
  (st ++ [(nextId, ⟨nextId, filename, p, size, mediaType, none, none, none, false⟩)],
   nextId + 1)

/-- Modelled from the spec: `storage.updateMediaFileWithReEncoded` is
called from the re-encode route but its implementation is absent from
the available sources (storage.ts's `IStorage` does not declare it).
Per spec §3/§4.4 it atomically populates `reEncodedPath`,
`reEncodedSize` and `reEncodedBitrate` together and marks the artifact
`isReEncoded` on successful completion. -/
def updateMediaFileWithReEncoded (st : Store) (id : Nat) (p : String)
    (sz : Nat) (br : String) : Store :=
  List.map
    (fun kv =>
      if kv.1 = id then
        (kv.1, { kv.2 with
                  reEncodedPath := some p
                  reEncodedSize := some sz
                  reEncodedBitrate := some br
                  isReEncoded := true })
      else kv)
    st

/-! ## The transcoder (`reEncodeMedia`) -/

inductive StreamType
  | video
  | audio
deriving DecidableEq, Repr

def StreamType.name : StreamType → String
  | .video => "video"
  | .audio => "audio"

/-- The ffmpeg command configuration chosen by `reEncodeMedia`'s codec
selection branch. -/
structure EncodePlan where
  videoCodec : Option String
  audioCodec : Option String
  videoBitrate : Option String
  audioBitrate : Option String
  outputOptions : List String
deriving DecidableEq, Repr

/-- ASCII `toLowerCase` on a char, as applied to file extensions. -/
def charToLower (c : Char) : Char :=
  if c.toNat ≥ 65 ∧ c.toNat ≤ 90 then Char.ofNat (c.toNat + 32) else c

/-- `String.prototype.toLowerCase` for the ASCII extensions involved. -/
def strToLower (s : String) : String :=
  String.mk (s.data.map charToLower)

/-- Codec selection of `reEncodeMedia`: video → re-encode video with
libx264 at the target bitrate and pin audio to 128k; audio → re-encode
audio with aac at the target bitrate and, for `.mp4` containers, copy
the video stream. -/
def encodePlan (fileExt targetBitrate : String) (streamType : StreamType) :
    EncodePlan :=
  match streamType with
  | .video =>
    { videoCodec := some "libx264"
      audioCodec := none
      videoBitrate := some targetBitrate
      audioBitrate := some "128k"
      outputOptions := ["-preset veryfast", "-movflags +faststart", "-tune film"] }
  | .audio =>
    { videoCodec := if strToLower fileExt = ".mp4" then some "copy" else none
      audioCodec := some "aac"
      videoBitrate := none
      audioBitrate := some targetBitrate
      outputOptions := ["-strict experimental", "-ar 44100"] }

/-- Job identifier construction, used both by the route
(`path.basename(mediaFile.path)` + `Date.now()`) and inside
`reEncodeMedia` (`path.basename(inputPath)` + `Date.now()`), each at
its own `Date.now()` reading. -/
def mkJobId (p : String) (now : Nat) : String :=
  pathBasename p ++ "_" ++ toString now

/-- The transcoder's output path:
`dirname/⟨name⟩_reencoded_⟨streamType⟩_⟨targetBitrate⟩⟨ext⟩`. -/
def reencodedOutputPath (inputPath targetBitrate : String)
    (streamType : StreamType) : String :=
  let fileExt := pathExtname inputPath
  let fileName := (pathBasename inputPath).dropRight fileExt.length
  pathDirname inputPath ++ "/" ++ fileName ++ "_reencoded_" ++
    streamType.name ++ "_" ++ targetBitrate ++ fileExt

/-- Result of the external ffmpeg run: either the `end` event fires or
the `error` event fires with a diagnostic. -/
inductive FfmpegResult
  | success
  | failure (msg : String)
deriving DecidableEq, Repr

/-- Result of the `fs.stat(outputPath)` performed in the `end` handler. -/
inductive StatResult
  | ok (size : Nat)
  | ioError (msg : String)
deriving DecidableEq, Repr

/-- The asynchronous environment a single `reEncodeMedia` call runs in:
whether the input file exists, the rounded percent values of the
`progress` events in order, how the ffmpeg run terminates, and whether
the post-completion stat of the output succeeds. -/
structure TranscodeEnv where
  inputExists : Bool
  progressEvents : List Nat
  ffmpeg : FfmpegResult
  statAfterEnd : StatResult
deriving Repr

/-- The diagnostic of a rejected transcode promise, `none` for a
fulfilled one. -/
def errMsg : Except String (String × Nat) → Option String
  | .error m => some m
  | .ok _ => none

/-- The `(path, size)` of a fulfilled transcode promise, `none` for a
rejected one. -/
def okResult : Except String (String × Nat) → Option (String × Nat)
  | .error _ => none
  | .ok ps => some ps

/-- Everything observable about one `reEncodeMedia` call: the tracker
after the terminal handler ran, the tracker as it stood while the job
was running (after registration and all progress events), the job id it
keyed the tracker with, the encode plan it configured, and the settled
promise. -/
structure TranscodeOutcome where
  tracker : Tracker
  trackerDuring : Tracker
  jobId : String
  plan : Option EncodePlan
  result : Except String (String × Nat)

/-- `reEncodeMedia(inputPath, targetBitrate, streamType = 'video')`.
The optional parameter defaults when the caller passes `undefined`
(`none`).  Faithful to the service: missing input throws before the
tracker is touched; the job is registered at 0 and updated by progress
events; the `end` handler stats the output and deletes the tracker
entry only when the stat succeeds (a failing stat rejects from the
`catch` without deleting); the `error` handler deletes and rejects. -/
def reEncodeMedia (t : Tracker) (inputPath targetBitrate : String)
    (streamTypeArg : Option StreamType) (now : Nat) (env : TranscodeEnv) :
    TranscodeOutcome :=
  let streamType := streamTypeArg.getD .video
  if !env.inputExists then
    { tracker := t
      trackerDuring := t
      jobId := mkJobId inputPath now
      plan := none
      result := .error ("Input file not found: " ++ inputPath) }
  else
    let jobId := mkJobId inputPath now
    let outputPath := reencodedOutputPath inputPath targetBitrate streamType
    let plan := encodePlan (pathExtname inputPath) targetBitrate streamType
    let t0 := trackerSet t jobId 0
    let tDuring := env.progressEvents.foldl (fun tr p => trackerSet tr jobId p) t0
    match env.ffmpeg with
    | .failure msg =>
      { tracker := trackerDelete tDuring jobId
        trackerDuring := tDuring
        jobId := jobId
        plan := some plan
        result := .error msg }
    | .success =>
      match env.statAfterEnd with
      | .ok size =>
        { tracker := trackerDelete tDuring jobId
          trackerDuring := tDuring
          jobId := jobId
          plan := some plan
          result := .ok (outputPath, size) }
      | .ioError msg =>
        { tracker := tDuring
          trackerDuring := tDuring
          jobId := jobId
          plan := some plan
          result := .error msg }

/-! ## The file system

File contents on the storage medium, keyed by path; `fs.existsSync`
is presence of the key, `fs.statSync(..).size` is the byte count and
`fs.createReadStream(path, start, end)` is an inclusive slice. -/

abbrev Fs := List (String × List Nat)

def fsLookup (fsys : Fs) (p : String) : Option (List Nat) :=
  Option.map Prod.snd (List.find? (fun kv => kv.1 = p) fsys)

def fsExists (fsys : Fs) (p : String) : Bool :=
  (fsLookup fsys p).isSome

/-! ## POST /api/media/reencode -/

/-- The JSON body a client posts; the client (BitrateModifier) also
sends a `streamType` field. -/
structure ReencodeBody where
  mediaFileId : Nat
  targetBitrate : String
  streamType : Option StreamType
deriving Repr

/-- What `reEncodeRequestSchema.safeParse` yields on success.
The schema (shared/schema.ts) declares only `mediaFileId` and
`targetBitrate`; zod objects strip unrecognized keys, so any
`streamType` the client sent is absent from the parsed data. -/
structure ParsedReencode where
  mediaFileId : Nat
  targetBitrate : String
deriving Repr

/-- `reEncodeRequestSchema.safeParse` on a well-typed body: succeeds
exactly when `targetBitrate` matches `bitrateFormatSchema`'s regex. -/
def reEncodeRequestSchemaParse (b : ReencodeBody) : Option ParsedReencode :=
  if zodBitrateRegexTest b.targetBitrate then
    some ⟨b.mediaFileId, b.targetBitrate⟩
  else none

/-- The synchronous HTTP response of the re-encode route. -/
inductive ReencodeHttp
  | badRequest
  | notFound
  | accepted (mediaFileId : Nat) (jobId : String) (progress : Nat)
deriving DecidableEq, Repr

/-- Everything observable about one re-encode submission: the response
sent to the client, the storage and tracker after the background task
settled, the tracker while the job was running, the job id the
transcoder keyed the tracker with, the encode plan it used, and whether
a transcode was started at all. -/
structure ReencodeRun where
  resp : ReencodeHttp
  store : Store
  tracker : Tracker
  trackerDuring : Tracker
  trackerJobId : Option String
  planUsed : Option EncodePlan
  transcodeStarted : Bool
  backgroundError : Option String

/-- `POST /api/media/reencode` (routes.ts): validate the body with the
zod schema (400 on failure), look the artifact up (404 when missing),
build a job id from the artifact path's basename and the route's
`Date.now()` reading, start `reEncodeMedia` — passing the `streamType`
destructured from the parsed data, which the schema stripped, hence
`undefined` — answer 202 with the route's job id, and in the background
commit a successful result via `updateMediaFileWithReEncoded` or, on a
rejected promise, only log (the store stays untouched). -/
def reencodeRoute (st : Store) (t : Tracker) (b : ReencodeBody)
    (routeNow encodeNow : Nat) (env : TranscodeEnv) : ReencodeRun :=
  match reEncodeRequestSchemaParse b with
  | none =>
    { resp := .badRequest, store := st, tracker := t, trackerDuring := t
      trackerJobId := none, planUsed := none, transcodeStarted := false
      backgroundError := none }
  | some parsed =>
    match storeGet st parsed.mediaFileId with
    | none =>
      { resp := .notFound, store := st, tracker := t, trackerDuring := t
        trackerJobId := none, planUsed := none, transcodeStarted := false
        backgroundError := none }
    | some mf =>
      let jobId := mkJobId mf.path routeNow
      let streamTypeArg : Option StreamType := none
      let out := reEncodeMedia t mf.path parsed.targetBitrate streamTypeArg
        encodeNow env
      let resp := ReencodeHttp.accepted parsed.mediaFileId jobId 0
      match out.result with
      | .ok ps =>
        { resp := resp
          store := updateMediaFileWithReEncoded st parsed.mediaFileId ps.1 ps.2
            parsed.targetBitrate
          tracker := out.tracker, trackerDuring := out.trackerDuring
          trackerJobId := some out.jobId, planUsed := out.plan
          transcodeStarted := env.inputExists
          backgroundError := none }
      | .error m =>
        { resp := resp
          store := st
          tracker := out.tracker, trackerDuring := out.trackerDuring
          trackerJobId := some out.jobId, planUsed := out.plan
          transcodeStarted := env.inputExists
          backgroundError := some m }

/-! ## GET /api/media/:id/status -/

/-- The response of the status route: 404 for an unknown artifact,
otherwise 200 with either the bare `isReEncoded: false` object or the
completed-artifact object. -/
inductive StatusHttp
  | notFound
  | pending
  | completed (fileExists : Bool) (targetBitrate : Option String)
      (size : Option Nat)
deriving DecidableEq, Repr

/-- `GET /api/media/:id/status` (routes.ts): when `isReEncoded` and a
`reEncodedPath` are set it reports completion together with whether the
output file still exists; otherwise it reports only
`isReEncoded: false`. -/
def statusRoute (st : Store) (fsys : Fs) (id : Nat) : StatusHttp :=
  match storeGet st id with
  | none => .notFound
  | some mf =>
    match mf.isReEncoded, mf.reEncodedPath with
    | true, some p => .completed (fsExists fsys p) mf.reEncodedBitrate mf.reEncodedSize
    | _, _ => .pending

/-! ## GET /api/media/:id/download -/

/-- A parsed `Range: bytes=start-end` header; `endPart = none` is the
open form `bytes=start-`. -/
structure RangeHeader where
  start : Nat
  endPart : Option Nat
deriving DecidableEq, Repr

/-- A response body: a plain-text/JSON message, or streamed file bytes. -/
inductive HttpBody
  | text (s : String)
  | fileBytes (bs : List Nat)
deriving DecidableEq, Repr

/-- The observable download response.  `contentLength` and
`contentRange` are the final header values; for the message responses
Express derives the length from the text, which no claim consults, so
it is left `none` there. -/
structure DownloadResp where
  status : Nat
  contentLength : Option Nat
  contentRange : Option (Nat × Nat × Nat)
  acceptRanges : Bool
  body : HttpBody
deriving DecidableEq, Repr

/-- `GET /api/media/:id/download` (routes.ts): 404 for an unknown
artifact, 400 when `isReEncoded`/`reEncodedPath` are not both set, 404
when the output file is missing from storage; then either the whole
file (200) or, with a Range header `bytes=start-end` (`end` defaulting
to `fileSize - 1`), 416 with a text body when `start ≥ fileSize`, else
206 with `Content-Range: bytes start-end/fileSize`, a Content-Length of
`end - start + 1` and the stream of bytes `start..min end (fileSize-1)`
(`fs.createReadStream` inclusive-slice semantics; the code never clamps
`end` itself).  The model assumes `start ≤ end` as sent by range-capable
clients — for `start > end` Node's stream setup raises instead. -/
def downloadRoute (st : Store) (fsys : Fs) (id : Nat)
    (range : Option RangeHeader) : DownloadResp :=
  match storeGet st id with
  | none =>
    { status := 404, contentLength := none, contentRange := none
      acceptRanges := false, body := .text "Media file not found" }
  | some mf =>
    match mf.isReEncoded, mf.reEncodedPath with
    | true, some p =>
      match fsLookup fsys p with
      | none =>
        { status := 404, contentLength := none, contentRange := none
          acceptRanges := false
          body := .text "Re-encoded file not found on server" }
      | some bs =>
        let fileSize := bs.length
        match range with
        | none =>
          { status := 200, contentLength := some fileSize
            contentRange := none, acceptRanges := true
            body := .fileBytes bs }
        | some r =>
          let start := r.start
          let e := r.endPart.getD (fileSize - 1)
          if start ≥ fileSize then
            { status := 416, contentLength := none, contentRange := none
              acceptRanges := true
              body := .text "Requested range not satisfiable" }
          else
            { status := 206, contentLength := some (e - start + 1)
              contentRange := some (start, e, fileSize), acceptRanges := true
              body := .fileBytes ((bs.drop start).take (e + 1 - start)) }
    | _, _ =>
      { status := 400, contentLength := none, contentRange := none
        acceptRanges := false
        body := .text "Media file has not been re-encoded" }

/-! ## Storage operation sequences

Used to state the all-or-nothing invariant on the three re-encoded
fields across every externally visible storage state. -/

/-- The storage operations the re-encode subsystem performs: creating
an artifact on upload, and committing a finished re-encode. -/
inductive StorageOp
  | create (filename p : String) (size : Nat) (mediaType : String)
  | commit (id : Nat) (p : String) (size : Nat) (bitrate : String)

/-- Apply one operation to the storage table and id counter. -/
def applyStorageOp : Store × Nat → StorageOp → Store × Nat
  | (st, nextId), .create filename p size mediaType =>
    createMediaFile st nextId filename p size mediaType
  | (st, nextId), .commit id p size bitrate =>
    (updateMediaFileWithReEncoded st id p size bitrate, nextId)

/-- Run a sequence of storage operations from the empty storage, as
`MemStorage` starts (`currentMediaFileId = 1`). -/
def runStorageOps (ops : List StorageOp) : Store × Nat :=
  ops.foldl applyStorageOp ([], 1)

/-- The §3 invariant: `reEncodedPath`, `reEncodedSize` and
`reEncodedBitrate` are all unset or all set. -/
def reencodeFieldsConsistent (mf : MediaFile) : Prop :=
  (mf.reEncodedPath = none ∧ mf.reEncodedSize = none ∧
    mf.reEncodedBitrate = none) ∨
  (mf.reEncodedPath ≠ none ∧ mf.reEncodedSize ≠ none ∧
    mf.reEncodedBitrate ≠ none)

instance (mf : MediaFile) : Decidable (reencodeFieldsConsistent mf) := by
  unfold reencodeFieldsConsistent; infer_instance

/-- A storage table in which every record satisfies the all-or-nothing
invariant on the re-encoded fields. -/
def storeConsistent (st : Store) : Prop :=
  ∀ kv ∈ st, reencodeFieldsConsistent kv.2

/-! ## Concrete fixtures -/

/-- A freshly uploaded mp3 artifact. -/
def audioArtifact : MediaFile :=
  ⟨1, "a.mp3", "tmp/a.mp3", 5000, "audio", none, none, none, false⟩

/-- A freshly uploaded mp4 artifact. -/
def videoArtifact : MediaFile :=
  ⟨2, "v.mp4", "tmp/v.mp4", 9000, "video", none, none, none, false⟩

/-- A storage table holding the two fresh artifacts. -/
def freshStore : Store := [(1, audioArtifact), (2, videoArtifact)]

/-- An environment where the transcode completes normally. -/
def envOk : TranscodeEnv := ⟨true, [42], .success, .ok 999⟩

/-- An environment where the ffmpeg process fails. -/
def envFfmpegFail : TranscodeEnv :=
  ⟨true, [42], .failure "ffmpeg exited with code 1", .ok 999⟩

/-- An environment where ffmpeg completes but the stat of the output
file then fails. -/
def envStatFail : TranscodeEnv := ⟨true, [100], .success, .ioError "EIO"⟩

/-- An artifact whose re-encode already completed, output
`tmp/out.mp3`. -/
def doneArtifact : MediaFile :=
  ⟨3, "a.mp3", "tmp/a.mp3", 5000, "audio", some "tmp/out.mp3", some 10,
   some "64k", true⟩

/-- A storage table holding only the completed artifact. -/
def doneStore : Store := [(3, doneArtifact)]

/-- A ten-byte re-encoded output file on disk. -/
def smallFs : Fs := [("tmp/out.mp3", [0, 1, 2, 3, 4, 5, 6, 7, 8, 9])]

end MediaService

namespace MediaService

theorem splitUnit_reverse_cons (cs : List Char) (c : Char) (rest : List Char)
    (h : cs.reverse = c :: rest) :
    splitUnit cs =
      if c = 'k' ∨ c = 'M' then (rest.reverse, some c) else (cs, none) := by
  unfold splitUnit
  rw [h]

theorem splitUnit_append_unit (ds : List Char) (c : Char)
    (hc : c = 'k' ∨ c = 'M') : splitUnit (ds ++ [c]) = (ds, some c) := by
  have hrev : (ds ++ [c]).reverse = c :: ds.reverse := by simp
  rw [splitUnit_reverse_cons _ _ _ hrev, if_pos hc, List.reverse_reverse]

theorem splitUnit_all_digits (ds : List Char) (hne : ds ≠ [])
    (hd : ∀ c ∈ ds, c.isDigit = true) : splitUnit ds = (ds, none) := by
  rcases List.eq_nil_or_concat ds with rfl | ⟨L, b, rfl⟩
  · exact absurd rfl hne
  · have hb : b.isDigit = true := hd b (by simp [List.concat_eq_append])
    have hbu : ¬ (b = 'k' ∨ b = 'M') := by
      rintro (rfl | rfl) <;> simp [Char.isDigit] at hb
    have hrev : (L.concat b).reverse = b :: L.reverse := by simp
    rw [splitUnit_reverse_cons _ _ _ hrev, if_neg hbu]

theorem splitUnit_decomp (cs : List Char) :
    cs = (splitUnit cs).1 ++ (splitUnit cs).2.toList := by
  rcases hrev : cs.reverse with _ | ⟨c, rest⟩
  · have hnil : cs = [] := by
      simpa using congrArg List.reverse hrev
    subst hnil
    rfl
  · have hcs : cs = rest.reverse ++ [c] := by
      simpa using congrArg List.reverse hrev
    rw [splitUnit_reverse_cons cs c rest hrev]
    by_cases hc : c = 'k' ∨ c = 'M'
    · rw [if_pos hc]
      simpa using hcs
    · rw [if_neg hc]
      simp

theorem splitUnit_unit_kM (cs : List Char) (c : Char)
    (h : (splitUnit cs).2 = some c) : c = 'k' ∨ c = 'M' := by
  rcases hrev : cs.reverse with _ | ⟨b, rest⟩
  · have hnil : cs = [] := by
      simpa using congrArg List.reverse hrev
    subst hnil
    simp [splitUnit] at h
  · rw [splitUnit_reverse_cons cs b rest hrev] at h
    by_cases hb : b = 'k' ∨ b = 'M'
    · rw [if_pos hb] at h
      have hbc : b = c := by simpa using h
      exact hbc ▸ hb
    · rw [if_neg hb] at h
      simp at h

theorem coreNumOk_iff (ds : List Char) :
    coreNumOk ds = true ↔
      ds ≠ [] ∧ (∀ c ∈ ds, c.isDigit = true) ∧ ds.length ≤ 7 ∧
        (ds.head? = some '0' → ds = ['0']) := by
  cases ds with
  | nil => simp [coreNumOk]
  | cons c rest =>
    have hred : coreNumOk (c :: rest) =
        if c = '0' then rest.isEmpty
        else c.isDigit && decide (rest.length ≤ 6) &&
          List.all rest (fun d => d.isDigit) := rfl
    rw [hred]
    by_cases hc : c = '0'
    · subst hc
      rw [if_pos rfl]
      constructor
      · intro hrest
        have hr : rest = [] := by simpa using hrest
        subst hr
        refine ⟨by simp, ?_, by simp, fun _ => rfl⟩
        intro d hd
        simp only [List.mem_singleton] at hd
        subst hd
        decide
      · rintro ⟨-, -, -, hzero⟩
        have h0 : rest = [] := by simpa using hzero rfl
        simp [h0]
    · rw [if_neg hc]
      simp only [Bool.and_assoc, Bool.and_eq_true, decide_eq_true_eq,
        List.all_eq_true]
      constructor
      · rintro ⟨hdig, hlen, hall⟩
        refine ⟨by simp, ?_, by simpa using hlen, ?_⟩
        · intro d hd
          rcases List.mem_cons.mp hd with rfl | hd
          · exact hdig
          · exact hall d hd
        · intro hhead
          simp only [List.head?_cons, Option.some.injEq] at hhead
          exact absurd hhead hc
      · rintro ⟨-, hall, hlen, -⟩
        refine ⟨hall c (by simp), by simpa using hlen, ?_⟩
        intro d hd
        exact hall d (List.mem_cons_of_mem c hd)

/-- C5, counterexample: `"08k"` and `"10000000"` both match the
claimed regex `^\d+(k|M)?$` with values inside the plausibility bounds
(8 in 8–8000 k; 10,000,000 in 8,000–50,000,000 bare), so the claimed
validator accepts them, yet `validateBitrateFormat` rejects both: its
actual regex forbids leading zeros and allows at most seven digits. -/
theorem C5_counterexample_claimed_regex_too_loose :
    (claimedValidBitrate "08k" = true ∧ validateBitrateFormat "08k" = false) ∧
    (claimedValidBitrate "10000000" = true ∧
      validateBitrateFormat "10000000" = false) := by
  decide

/-- C5, amended: `validateBitrateFormat` returns true for exactly the
strings made of a digit sequence with no leading zero and at most
seven digits (the regex `^(?:[1-9]\d{0,6}|0)(?:k|M)?$`, not the
claimed `^\d+(k|M)?$`), followed by an optional `k` or `M`, whose
decimal value lies within the plausibility bounds — 8–8000 for `k`,
1–50 for `M`, 8000–50,000,000 bare — and false for every other
string. -/
theorem C5_validateBitrateFormat_characterization (s : String) :
    validateBitrateFormat s = true ↔ amendedValidBitrate s := by
  constructor
  · intro h
    unfold validateBitrateFormat at h
    by_cases hreg : strongBitrateRegexTest s = true
    · rw [hreg] at h
      simp only [Bool.not_true, Bool.false_eq_true, if_false] at h
      have hdecomp := splitUnit_decomp s.data
      have hcore : coreNumOk (splitUnit s.data).1 = true := hreg
      obtain ⟨hne, hdig, hlen, hzero⟩ := (coreNumOk_iff _).mp hcore
      refine ⟨(splitUnit s.data).1, (splitUnit s.data).2, hdecomp, ?_,
        hne, hdig, hlen, hzero, ?_⟩
      · rcases hu : (splitUnit s.data).2 with _ | c
        · exact Or.inl rfl
        · rcases splitUnit_unit_kM s.data c hu with rfl | rfl
          · exact Or.inr (Or.inl rfl)
          · exact Or.inr (Or.inr rfl)
      · by_cases hM : (splitUnit s.data).2 = some 'M'
        · rw [if_pos hM] at h
          rw [hM]
          unfold unitBounds
          rw [if_neg (by decide), if_pos rfl]
          exact of_decide_eq_true h
        · rw [if_neg hM] at h
          by_cases hk : (splitUnit s.data).2 = some 'k'
          · rw [if_pos hk] at h
            rw [hk]
            unfold unitBounds
            rw [if_pos rfl]
            exact of_decide_eq_true h
          · rw [if_neg hk] at h
            rcases hu : (splitUnit s.data).2 with _ | c
            · unfold unitBounds
              rw [if_neg (by decide), if_neg (by decide), if_pos rfl]
              exact of_decide_eq_true h
            · rcases splitUnit_unit_kM s.data c hu with rfl | rfl
              · exact absurd hu hk
              · exact absurd hu hM
    · rw [Bool.not_eq_true] at hreg
      rw [hreg] at h
      simp at h
  · rintro ⟨ds, u, hdecomp, hu, hne, hdig, hlen, hzero, hbounds⟩
    have hsplit : splitUnit s.data = (ds, u) := by
      rw [hdecomp]
      rcases hu with rfl | rfl | rfl
      · simpa using splitUnit_all_digits ds hne hdig
      · exact splitUnit_append_unit ds 'k' (Or.inl rfl)
      · exact splitUnit_append_unit ds 'M' (Or.inr rfl)
    have hcore : coreNumOk ds = true :=
      (coreNumOk_iff ds).mpr ⟨hne, hdig, hlen, hzero⟩
    unfold validateBitrateFormat strongBitrateRegexTest
    rw [hsplit]
    dsimp only
    rw [hcore]
    simp only [Bool.not_true, Bool.false_eq_true, if_false]
    unfold unitBounds at hbounds
    rcases hu with rfl | rfl | rfl
    · rw [if_neg (by decide), if_neg (by decide), if_pos rfl] at hbounds
      rw [if_neg (by decide), if_neg (by decide)]
      exact decide_eq_true hbounds
    · rw [if_pos rfl] at hbounds
      rw [if_neg (by decide), if_pos rfl]
      exact decide_eq_true hbounds
    · rw [if_neg (by decide), if_pos rfl] at hbounds
      rw [if_pos rfl]
      exact decide_eq_true hbounds

/-- C1: refuted on the code.  The route and `reEncodeMedia` read
`Date.now()` independently; when the route's reading is 1000 and the
transcoder's is 1001, the client is told jobId `a.mp3_1000` while the
ProgressTracker is keyed by `a.mp3_1001`, so a progress query with the
returned id reports the default 0 although the running job stands at
42. -/
theorem C1_returned_jobId_misses_tracker_key :
    (reencodeRoute freshStore [] ⟨1, "64k", some .audio⟩ 1000 1001 envOk).resp =
      .accepted 1 "a.mp3_1000" 0 ∧
    (reencodeRoute freshStore [] ⟨1, "64k", some .audio⟩ 1000 1001
      envOk).trackerJobId = some "a.mp3_1001" ∧
    (reencodeRoute freshStore [] ⟨1, "64k", some .audio⟩ 1000 1001
      envOk).trackerJobId ≠ some "a.mp3_1000" ∧
    getEncodingProgress
      (reencodeRoute freshStore [] ⟨1, "64k", some .audio⟩ 1000 1001
        envOk).trackerDuring "a.mp3_1000" = 0 ∧
    getEncodingProgress
      (reencodeRoute freshStore [] ⟨1, "64k", some .audio⟩ 1000 1001
        envOk).trackerDuring "a.mp3_1001" = 42 := by
  decide

/-- C2: refuted on the code.  When the background transcode fails after
the 202 was sent, the route only logs: the storage record is exactly
what it was before the submission, and the status query answers the
bare `isReEncoded: false` object — indistinguishable from a job still
in progress, with no retained failure. -/
theorem C2_background_failure_not_queryable :
    (reencodeRoute freshStore [] ⟨1, "64k", some .audio⟩ 1000 1001
      envFfmpegFail).backgroundError = some "ffmpeg exited with code 1" ∧
    (reencodeRoute freshStore [] ⟨1, "64k", some .audio⟩ 1000 1001
      envFfmpegFail).store = freshStore ∧
    statusRoute
      (reencodeRoute freshStore [] ⟨1, "64k", some .audio⟩ 1000 1001
        envFfmpegFail).store smallFs 1 = .pending ∧
    statusRoute freshStore smallFs 1 = .pending := by
  decide

/-- C3: refuted on the code.  A submission for the mp4 artifact with
`streamType: "audio"` still gets the video policy: the request schema
strips `streamType`, the route passes `undefined`, and `reEncodeMedia`
falls back to its `'video'` default — the video stream is re-encoded
with libx264 at the requested bitrate instead of being copied, and the
audio is pinned to 128k instead of the requested bitrate. -/
theorem C3_streamType_stripped_video_policy_applied :
    (reencodeRoute freshStore [] ⟨2, "64k", some .audio⟩ 1000 1001
      envOk).planUsed = some (encodePlan ".mp4" "64k" .video) ∧
    (encodePlan ".mp4" "64k" .video).videoCodec = some "libx264" ∧
    (encodePlan ".mp4" "64k" .video).audioBitrate = some "128k" ∧
    (encodePlan ".mp4" "64k" .audio).videoCodec = some "copy" ∧
    (encodePlan ".mp4" "64k" .audio).audioBitrate = some "64k" ∧
    (reencodeRoute freshStore [] ⟨2, "64k", some .audio⟩ 1000 1001
      envOk).planUsed ≠ some (encodePlan ".mp4" "64k" .audio) := by
  decide

/-- C4: refuted on the code.  `"0k"` is rejected by
`validateBitrateFormat` (below the 8–8000 k bound), yet the route
validates only against the zod regex `^\d+(k|M)?$`, so the submission
is answered 202 and a transcode is started. -/
theorem C4_out_of_bounds_bitrate_accepted :
    validateBitrateFormat "0k" = false ∧
    (reencodeRoute freshStore [] ⟨1, "0k", none⟩ 1000 1001 envOk).resp =
      .accepted 1 "a.mp3_1000" 0 ∧
    (reencodeRoute freshStore [] ⟨1, "0k", none⟩ 1000 1001
      envOk).transcodeStarted = true := by
  decide

theorem applyStorageOp_preserves (s : Store × Nat) (op : StorageOp)
    (h : storeConsistent s.1) : storeConsistent (applyStorageOp s op).1 := by
  obtain ⟨st, n⟩ := s
  cases op with
  | create filename p size mediaType =>
    intro kv hkv
    simp only [applyStorageOp, createMediaFile, List.mem_append,
      List.mem_singleton] at hkv
    rcases hkv with hkv | rfl
    · exact h kv hkv
    · left; exact ⟨rfl, rfl, rfl⟩
  | commit id p size bitrate =>
    intro kv hkv
    simp only [applyStorageOp, updateMediaFileWithReEncoded,
      List.mem_map] at hkv
    obtain ⟨kv', hkv', rfl⟩ := hkv
    by_cases hid : kv'.1 = id
    · simp only [hid, if_pos rfl]
      right
      exact ⟨by simp, by simp, by simp⟩
    · simp only [if_neg hid]
      exact h kv' hkv'

theorem runStorageOps_consistent (ops : List StorageOp) (s : Store × Nat)
    (h : storeConsistent s.1) :
    storeConsistent (ops.foldl applyStorageOp s).1 := by
  induction ops generalizing s with
  | nil => simpa
  | cons op rest ih => exact ih _ (applyStorageOp_preserves s op h)

/-- C6: every artifact record reachable through the storage operations
of the subsystem — creation at upload and the (spec-modelled) atomic
re-encode commit — has `reEncodedPath`, `reEncodedSize` and
`reEncodedBitrate` all unset or all set; no operation exposes a state
with only some of them set. -/
theorem C6_reencoded_fields_all_or_nothing (ops : List StorageOp) (id : Nat)
    (mf : MediaFile) (h : storeGet (runStorageOps ops).1 id = some mf) :
    reencodeFieldsConsistent mf := by
  have hinv : storeConsistent (runStorageOps ops).1 := by
    apply runStorageOps_consistent
    intro kv hkv
    exact absurd hkv (List.not_mem_nil kv)
  unfold storeGet at h
  cases hfind : List.find? (fun kv => kv.1 = id) (runStorageOps ops).1 with
  | none => rw [hfind] at h; simp at h
  | some kv =>
    rw [hfind] at h
    have hk : kv.2 = mf := by simpa using h
    exact hk ▸ hinv kv (List.mem_of_find?_eq_some hfind)

/-- Witness for C6: after an upload followed by a successful commit,
the stored record has the three fields all set. -/
theorem C6_reencoded_fields_all_or_nothing_witness :
    reencodeFieldsConsistent
      ⟨1, "a.mp3", "tmp/a.mp3", 5000, "audio", some "tmp/out.mp3", some 10,
       some "64k", true⟩ :=
  C6_reencoded_fields_all_or_nothing
    [.create "a.mp3" "tmp/a.mp3" 5000 "audio", .commit 1 "tmp/out.mp3" 10 "64k"]
    1 _ (by decide)

/-- C9: refuted on the code.  When ffmpeg's `end` event fires but the
following `fs.stat(outputPath)` fails, the `end` handler's catch
rejects the promise without deleting the ProgressTracker entry: the
job reaches a terminal (failed) outcome, yet its entry survives and
progress queries keep answering the last value 100 instead of 0. -/
theorem C9_tracker_entry_leaks_when_stat_fails :
    errMsg (reEncodeMedia [] "tmp/a.mp3" "64k" none 1001 envStatFail).result =
      some "EIO" ∧
    (reEncodeMedia [] "tmp/a.mp3" "64k" none 1001 envStatFail).tracker =
      [("a.mp3_1001", 100)] ∧
    getEncodingProgress
      (reEncodeMedia [] "tmp/a.mp3" "64k" none 1001 envStatFail).tracker
      "a.mp3_1001" = 100 := by
  decide

/-- C8: the download route serves file bytes only when the artifact's
`isReEncoded` flag is set and the re-encoded output is present on
storage at request time; an artifact that is not (fully) re-encoded is
answered 400, and a set flag whose output file is missing is answered
404; any served bytes come from the file currently on storage. -/
theorem C8_download_serves_only_present_reencodes (st : Store) (fsys : Fs)
    (id : Nat) (range : Option RangeHeader) (mf : MediaFile)
    (h : storeGet st id = some mf) :
    ((mf.isReEncoded = false ∨ mf.reEncodedPath = none) →
      (downloadRoute st fsys id range).status = 400) ∧
    (∀ p, mf.isReEncoded = true → mf.reEncodedPath = some p →
      fsLookup fsys p = none →
      (downloadRoute st fsys id range).status = 404) ∧
    (∀ bs, (downloadRoute st fsys id range).body = .fileBytes bs →
      mf.isReEncoded = true ∧
      ∃ p fileBs, mf.reEncodedPath = some p ∧ fsLookup fsys p = some fileBs ∧
        (bs = fileBs ∨ ∃ s t, bs = (fileBs.drop s).take t)) := by
  unfold downloadRoute
  rw [h]
  dsimp only
  cases henc : mf.isReEncoded with
  | false =>
    dsimp only
    refine ⟨fun _ => rfl, ?_, ?_⟩
    · intro p hT _ _; cases hT
    · intro bs hbody; cases hbody
  | true =>
    cases hpath : mf.reEncodedPath with
    | none =>
      dsimp only
      refine ⟨fun _ => rfl, ?_, ?_⟩
      · intro p _ hp _; cases hp
      · intro bs hbody; cases hbody
    | some p =>
      dsimp only
      cases hfs : fsLookup fsys p with
      | none =>
        dsimp only
        refine ⟨?_, fun q _ hq _ => rfl, ?_⟩
        · rintro (hF | hN)
          · cases hF
          · cases hN
        · intro bs hbody; cases hbody
      | some fileBs =>
        dsimp only
        refine ⟨?_, ?_, ?_⟩
        · rintro (hF | hN)
          · cases hF
          · cases hN
        · intro q _ hq hlook
          cases hq
          rw [hfs] at hlook
          cases hlook
        · intro bs hbody
          refine ⟨rfl, p, fileBs, rfl, hfs, ?_⟩
          cases range with
          | none =>
            dsimp only at hbody
            cases hbody
            exact Or.inl rfl
          | some r =>
            dsimp only at hbody
            by_cases hsat : r.start ≥ fileBs.length
            · rw [if_pos hsat] at hbody
              dsimp only at hbody
              cases hbody
            · rw [if_neg hsat] at hbody
              dsimp only at hbody
              cases hbody
              exact Or.inr ⟨r.start, _, rfl⟩

/-- Witness for C8: the completed ten-byte artifact is served (the
full-file branch yields the file's bytes), and the fresh artifact is
answered 400. -/
theorem C8_download_serves_only_present_reencodes_witness :
    (doneArtifact.isReEncoded = true ∧
      ∃ p fileBs, doneArtifact.reEncodedPath = some p ∧
        fsLookup smallFs p = some fileBs ∧
        ([0, 1, 2, 3, 4, 5, 6, 7, 8, 9] = fileBs ∨
          ∃ s t, ([0, 1, 2, 3, 4, 5, 6, 7, 8, 9] : List Nat) =
            (fileBs.drop s).take t)) ∧
    (downloadRoute freshStore smallFs 1 none).status = 400 :=
  ⟨(C8_download_serves_only_present_reencodes doneStore smallFs 3 none
      doneArtifact (by decide)).2.2 [0, 1, 2, 3, 4, 5, 6, 7, 8, 9] (by decide),
   (C8_download_serves_only_present_reencodes freshStore smallFs 1 none
      audioArtifact (by decide)).1 (Or.inl (by decide))⟩

/-- C7, counterexample: the claim fails on the code in two places.
`bytes=10-` on the ten-byte file is answered 416 but with a plain-text
body, not "no body"; and `bytes=4-14` on the same file is answered 206
with Content-Length 11 while only the six existing bytes 4–9 are
served, not the requested eleven-byte span. -/
theorem C7_counterexample_416_body_and_short_span :
    ((downloadRoute doneStore smallFs 3 (some ⟨10, none⟩)).status = 416 ∧
     (downloadRoute doneStore smallFs 3 (some ⟨10, none⟩)).body =
       .text "Requested range not satisfiable") ∧
    ((downloadRoute doneStore smallFs 3 (some ⟨4, some 14⟩)).status = 206 ∧
     (downloadRoute doneStore smallFs 3 (some ⟨4, some 14⟩)).contentLength =
       some 11 ∧
     (downloadRoute doneStore smallFs 3 (some ⟨4, some 14⟩)).body =
       .fileBytes [4, 5, 6, 7, 8, 9]) := by
  decide

/-- C7, amended: on an existing re-encoded file, a request
`bytes=start-end` (end optional, defaulting to the last byte) is
answered 416 with a short plain-text body when `start ≥ fileSize`;
otherwise 206 with a Content-Range descriptor ending at `end` and a
Content-Length of `end − start + 1`, serving the existing bytes of the
requested span, i.e. positions `start..min end (fileSize−1)` — the full
requested span exactly when `end < fileSize` (so `bytes=0-99` on a
1000-byte file yields 206, Content-Length 100 and exactly bytes
0–99). -/
theorem C7_range_download_amended (st : Store) (fsys : Fs) (id : Nat)
    (mf : MediaFile) (p : String) (bs : List Nat) (start : Nat)
    (endOpt : Option Nat)
    (hmf : storeGet st id = some mf) (henc : mf.isReEncoded = true)
    (hp : mf.reEncodedPath = some p) (hfs : fsLookup fsys p = some bs)
    (hse : start ≤ endOpt.getD (bs.length - 1)) :
    (start ≥ bs.length →
      (downloadRoute st fsys id (some ⟨start, endOpt⟩)).status = 416 ∧
      ∃ msg, (downloadRoute st fsys id (some ⟨start, endOpt⟩)).body =
        .text msg) ∧
    (start < bs.length →
      (downloadRoute st fsys id (some ⟨start, endOpt⟩)).status = 206 ∧
      (downloadRoute st fsys id (some ⟨start, endOpt⟩)).contentLength =
        some (endOpt.getD (bs.length - 1) - start + 1) ∧
      (downloadRoute st fsys id (some ⟨start, endOpt⟩)).contentRange =
        some (start, endOpt.getD (bs.length - 1), bs.length) ∧
      ∃ served,
        (downloadRoute st fsys id (some ⟨start, endOpt⟩)).body =
          .fileBytes served ∧
        served.length = min (endOpt.getD (bs.length - 1) + 1) bs.length - start ∧
        (∀ i, i < served.length → served.getD i 0 = bs.getD (start + i) 0) ∧
        (endOpt.getD (bs.length - 1) < bs.length →
          served.length = endOpt.getD (bs.length - 1) - start + 1)) := by
  unfold downloadRoute
  rw [hmf]
  dsimp only
  rw [henc, hp]
  dsimp only
  rw [hfs]
  dsimp only
  constructor
  · intro hge
    rw [if_pos hge]
    exact ⟨rfl, "Requested range not satisfiable", rfl⟩
  · intro hlt
    rw [if_neg (by omega)]
    refine ⟨rfl, rfl, rfl,
      (bs.drop start).take (endOpt.getD (bs.length - 1) + 1 - start),
      rfl, ?_, ?_, ?_⟩
    · rw [List.length_take, List.length_drop]
      omega
    · intro i hi
      rw [List.length_take, List.length_drop] at hi
      rw [List.getD_eq_getElem?_getD, List.getD_eq_getElem?_getD,
        List.getElem?_take_of_lt (by omega), List.getElem?_drop]
    · intro hlast
      rw [List.length_take, List.length_drop]
      omega

/-- Witness for C7: `bytes=0-3` on the ten-byte file is answered 206
with Content-Length 4 and the four requested bytes. -/
theorem C7_range_download_amended_witness :
    (downloadRoute doneStore smallFs 3 (some ⟨0, some 3⟩)).status = 206 ∧
    (downloadRoute doneStore smallFs 3 (some ⟨0, some 3⟩)).contentLength =
      some 4 := by
  have h := C7_range_download_amended doneStore smallFs 3 doneArtifact
    "tmp/out.mp3" [0, 1, 2, 3, 4, 5, 6, 7, 8, 9] 0 (some 3) (by decide)
    (by decide) (by decide) (by decide) (by decide)
  have h2 := (h.2 (by decide))
  exact ⟨h2.1, by simpa using h2.2.1⟩

/-- C10: confirmed.  With `Range: bytes=start-end` where
`start < fileSize ≤ end`, the route does not clamp `end`: it answers
206, declares `Content-Length = end - start + 1` and a Content-Range
ending at `end`, while the streamed body holds only the
`fileSize - start` bytes that exist, strictly fewer than declared. -/
theorem C10_range_end_not_clamped (st : Store) (fsys : Fs) (id : Nat)
    (mf : MediaFile) (p : String) (bs : List Nat) (start e : Nat)
    (hmf : storeGet st id = some mf) (henc : mf.isReEncoded = true)
    (hp : mf.reEncodedPath = some p) (hfs : fsLookup fsys p = some bs)
    (hstart : start < bs.length) (hend : bs.length ≤ e) :
    (downloadRoute st fsys id (some ⟨start, some e⟩)).status = 206 ∧
    (downloadRoute st fsys id (some ⟨start, some e⟩)).contentLength =
      some (e - start + 1) ∧
    (downloadRoute st fsys id (some ⟨start, some e⟩)).contentRange =
      some (start, e, bs.length) ∧
    ∃ served,
      (downloadRoute st fsys id (some ⟨start, some e⟩)).body =
        .fileBytes served ∧
      served.length = bs.length - start ∧
      bs.length - start < e - start + 1 := by
  unfold downloadRoute
  rw [hmf]
  dsimp only
  rw [henc, hp]
  dsimp only
  rw [hfs]
  dsimp only [Option.getD]
  have hnot : ¬ start ≥ bs.length := by omega
  rw [if_neg hnot]
  refine ⟨rfl, rfl, rfl, (bs.drop start).take (e + 1 - start), rfl, ?_, by omega⟩
  rw [List.length_take, List.length_drop]
  omega

/-- Witness for C10: `bytes=4-14` on the ten-byte file yields 206 with
a declared length of 11 but only six streamed bytes. -/
theorem C10_range_end_not_clamped_witness :
    (downloadRoute doneStore smallFs 3 (some ⟨4, some 14⟩)).status = 206 ∧
    (downloadRoute doneStore smallFs 3 (some ⟨4, some 14⟩)).contentLength =
      some 11 ∧
    (downloadRoute doneStore smallFs 3 (some ⟨4, some 14⟩)).contentRange =
      some (4, 14, 10) ∧
    ∃ served,
      (downloadRoute doneStore smallFs 3 (some ⟨4, some 14⟩)).body =
        .fileBytes served ∧
      served.length = 10 - 4 ∧ 10 - 4 < 14 - 4 + 1 :=
  C10_range_end_not_clamped doneStore smallFs 3 doneArtifact "tmp/out.mp3"
    [0, 1, 2, 3, 4, 5, 6, 7, 8, 9] 4 14 (by decide) (by decide) (by decide)
    (by decide) (by decide) (by decide)

end MediaService
